import Mathlib

/-!
Verification development for the `aiobspwm` bspwm state-mirror client
(`aiobspwm.py`).  The Python data model and the operations the claims
concern are embedded shallowly:

* Python `dict` (insertion ordered, unique keys, assignment replaces in
  place) becomes an association list with `dictSet` / `dictGet` below.
* `Desktop` / `Monitor` / the `WM` mirror state become structures.  In the
  Python code `Monitor.focused_desktop` and `WM.focused_monitor` hold
  object references, but at every observation point (between event
  applications) each reference is identical to the dictionary entry under
  its id: `focused_desktop` is only ever assigned `self.desktops[...]`
  (`Monitor.__init__`, `_on_desktop_focus`) and desktop objects are never
  replaced in a monitor dictionary; `focused_monitor` is only ever
  assigned `self.monitors[...]` (`_apply_initial_state`), after which no
  entry of `monitors` is replaced before the next assignment completes.
  The embedding therefore stores the id, which is faithful at every state
  the claims quantify over.
* Exceptions become an explicit error type: Python `KeyError` (what the
  spec taxonomy calls MalformedStateError), `ValueError` from `int(x, 16)`
  (the spec taxonomy ProtocolError) and `TypeError` from calling a handler
  with too few arguments.
* The per-event observation hook `_evt_hook` is modelled by recording, for
  every invocation, the raw line passed to it together with the mirror
  state in force at the moment of the call.
* `_on_monitor_geometry` re-runs the bootstrap; the dump the daemon would
  return to that `wm -d` request is passed to the dispatcher as an
  explicit parameter.
-/

/-- Python dictionary lookup `d[k]` on an insertion-ordered association
list: first binding of the key, if any. -/
def dictGet {α : Type} (d : List (Int × α)) (k : Int) : Option α :=
  match d with
  | [] => none
  | (k₂, v) :: rest => if k = k₂ then some v else dictGet rest k

/-- Python dictionary assignment `d[k] = v`: replace the binding in place
when the key is present, otherwise append the new binding. -/
def dictSet {α : Type} (d : List (Int × α)) (k : Int) (v : α) : List (Int × α) :=
  match d with
  | [] => [(k, v)]
  | (k₂, v₂) :: rest =>
    if k₂ = k then (k, v) :: rest else (k₂, v₂) :: dictSet rest k v

/-- Keys of a Python dictionary, in insertion order. -/
def dictKeys {α : Type} (d : List (Int × α)) : List Int :=
  d.map Prod.fst

/-- Embeds `Desktop.__init__`: id, name and layout (`_extra_props` carries
no behaviour used by any operation and is omitted). -/
structure Desktop where
  id : Int
  name : String
  layout : String
deriving DecidableEq

/-- Embeds a `Monitor` object: id, name, dictionary of desktops keyed by
desktop id, and the focused desktop held by id (see the header comment on
reference-versus-id fidelity). -/
structure Monitor where
  id : Int
  name : String
  desktops : List (Int × Desktop)
  focused_desktop : Int
deriving DecidableEq

/-- Embeds the mirror held on the `WM` object: `self.monitors` and
`self.focused_monitor` (by id; `none` is the initial Python `None`). -/
structure ClientState where
  monitors : List (Int × Monitor)
  focused_monitor : Option Int
deriving DecidableEq

/-- State of a fresh `WM` object before `start`: empty monitor dictionary,
`focused_monitor = None`. -/
def WM.initState : ClientState := ⟨[], none⟩

/-- One desktop record of a `wm -d` dump (the fields `Desktop.__init__`
consumes; unknown extra fields are dropped). -/
structure DesktopDump where
  id : Int
  name : String
  layout : String
deriving DecidableEq

/-- One monitor record of a `wm -d` dump (the fields `Monitor.__init__`
consumes). -/
structure MonitorDump where
  id : Int
  name : String
  desktops : List DesktopDump
  focusedDesktopId : Int
deriving DecidableEq

/-- A parsed `wm -d` dump: the fields `_apply_initial_state` consumes. -/
structure WmDump where
  monitors : List MonitorDump
  focusedMonitorId : Int
deriving DecidableEq

/-- The Python exceptions the embedded operations can raise.  `keyError`
is a failed dictionary lookup (the spec calls this condition
MalformedStateError); `valueError` is a failed `int(x, 16)` conversion
(the spec calls it ProtocolError) and carries the offending argument
string; `typeError` is a handler invoked with too few arguments. -/
inductive PyErr where
  | keyError : Int → PyErr
  | valueError : String → PyErr
  | typeError : PyErr
deriving DecidableEq

/-- Embeds the `Desktop(**desk)` construction from a dump record. -/
def Desktop.ofDump (d : DesktopDump) : Desktop :=
  ⟨d.id, d.name, d.layout⟩

/-- Embeds the desktop-dictionary construction loop of `Monitor.__init__`:
`self.desktops[desk['id']] = Desktop(**desk)` over the dump list. -/
def deskDict (ds : List DesktopDump) : List (Int × Desktop) :=
  ds.foldl (fun a d => dictSet a d.id (Desktop.ofDump d)) []

/-- Embeds `Monitor.__init__` continued: resolve `focusedDesktopId` in the
just-built dictionary; an unresolved id is the Python `KeyError` on
`self.desktops[focusedDesktopId]`. -/
def Monitor.init (m : MonitorDump) : Except PyErr Monitor :=
  match dictGet (deskDict m.desktops) m.focusedDesktopId with
  | none => .error (.keyError m.focusedDesktopId)
  | some _ => .ok ⟨m.id, m.name, deskDict m.desktops, m.focusedDesktopId⟩

/-- The monitor-installation loop of `_apply_initial_state`
(`self.monitors[mon['id']] = Monitor(**mon)` for each dump record).  On a
`KeyError` inside `Monitor.__init__` the exception propagates, leaving the
monitors installed so far in place. -/
def installMonitors (s : ClientState) : List MonitorDump → ClientState × Option PyErr
  | [] => (s, none)
  | m :: rest =>
    match Monitor.init m with
    | .error e => (s, some e)
    | .ok mon => installMonitors ⟨dictSet s.monitors m.id mon, s.focused_monitor⟩ rest

/-- Embeds `WM._apply_initial_state`: install every dump monitor into the
existing dictionary, then resolve `focusedMonitorId` against
`self.monitors` (which still holds monitors from before the call whose
ids the dump does not mention). -/
def applyInitialState (s : ClientState) (d : WmDump) : ClientState × Option PyErr :=
  match installMonitors s d.monitors with
  | (s₂, some e) => (s₂, some e)
  | (s₂, none) =>
    match dictGet s₂.monitors d.focusedMonitorId with
    | none => (s₂, some (.keyError d.focusedMonitorId))
    | some _ => (⟨s₂.monitors, some d.focusedMonitorId⟩, none)

/-- Embeds `WM._on_desktop_focus`: two lookups (monitor id, then desktop
id inside that monitor), then the focused-desktop assignment. -/
def onDesktopFocus (s : ClientState) (mon_id desk_id : Int) : ClientState × Option PyErr :=
  match dictGet s.monitors mon_id with
  | none => (s, some (.keyError mon_id))
  | some m =>
    match dictGet m.desktops desk_id with
    | none => (s, some (.keyError desk_id))
    | some _ =>
      (⟨dictSet s.monitors mon_id ⟨m.id, m.name, m.desktops, desk_id⟩,
        s.focused_monitor⟩, none)

/-- Embeds `WM._on_desktop_layout`: resolve the monitor and the desktop,
then overwrite that desktop's layout field. -/
def onDesktopLayout (s : ClientState) (mon_id desk_id : Int) (new_layout : String) :
    ClientState × Option PyErr :=
  match dictGet s.monitors mon_id with
  | none => (s, some (.keyError mon_id))
  | some m =>
    match dictGet m.desktops desk_id with
    | none => (s, some (.keyError desk_id))
    | some dk =>
      (⟨dictSet s.monitors mon_id
          ⟨m.id, m.name, dictSet m.desktops desk_id ⟨dk.id, dk.name, new_layout⟩,
           m.focused_desktop⟩,
        s.focused_monitor⟩, none)

/-- Embeds `WM._on_monitor_geometry`: `await self.start()`, i.e. a full
re-bootstrap from the dump the daemon returns for `wm -d`. -/
def onMonitorGeometry (s : ClientState) (dump : WmDump) : ClientState × Option PyErr :=
  applyInitialState s dump

/-- Characters Python `int` strips around a numeric literal. -/
def isPySpace (c : Char) : Bool :=
  c = ' ' ∨ c = '\t' ∨ c = '\n' ∨ c = '\x0b' ∨ c = '\x0c' ∨ c = '\r'

/-- Value of one hexadecimal digit, if the character is one. -/
def hexDigitVal (c : Char) : Option Nat :=
  if '0' ≤ c ∧ c ≤ '9' then some (c.toNat - '0'.toNat)
  else if 'a' ≤ c ∧ c ≤ 'f' then some (c.toNat - 'a'.toNat + 10)
  else if 'A' ≤ c ∧ c ≤ 'F' then some (c.toNat - 'A'.toNat + 10)
  else none

/-- Parse a nonempty run of hexadecimal digits, most significant first. -/
def parseHexDigits (cs : List Char) : Option Nat :=
  if cs.isEmpty then none
  else
    cs.foldl
      (fun acc c =>
        match acc, hexDigitVal c with
        | some n, some d => some (n * 16 + d)
        | _, _ => none)
      (some 0)

/-- Embeds the converter `functools.partial(int, base=16)` used by the
event table: surrounding whitespace is stripped, then an optional sign,
an optional `0x`/`0X` prefix, and a nonempty digit run.  (CPython also
accepts underscores between digits and non-ASCII digits; no event line in
scope uses either.)  `none` is the Python `ValueError`. -/
def pyIntBase16 (s : String) : Option Int :=
  let cs := ((s.toList.dropWhile isPySpace).reverse.dropWhile isPySpace).reverse
  let signed : Int × List Char :=
    match cs with
    | '-' :: rest => (-1, rest)
    | '+' :: rest => (1, rest)
    | _ => (1, cs)
  let digits : List Char :=
    match signed.2 with
    | '0' :: 'x' :: rest => rest
    | '0' :: 'X' :: rest => rest
    | _ => signed.2
  match parseHexDigits digits with
  | none => none
  | some n => some (signed.1 * n)

/-- Python `str.split` with an explicit one-character separator, on the
character list: split at every occurrence, keeping empty pieces
(`''.split(sep)` is `['']`, `'a  b'.split(' ')` is `['a', '', 'b']`).
Structurally recursive so that concrete dispatches evaluate. -/
def pySplitChars (sep : Char) : List Char → List (List Char)
  | [] => [[]]
  | c :: rest =>
    if c = sep then [] :: pySplitChars sep rest
    else
      match pySplitChars sep rest with
      | [] => [[c]]
      | w :: ws => (c :: w) :: ws

/-- Python `str.split(sep)` for a one-character separator, as used by
`_on_wm_event` (`line.split(' ')`) and `run` (`evt.split('\n')`). -/
def pySplit (sep : Char) (s : String) : List String :=
  (pySplitChars sep s.data).map fun cs => ⟨cs⟩

/-- Result of dispatching one event line (or a list of them): the mirror
state afterwards, the recorded hook invocations (raw line plus the state
in force when `_evt_hook` ran), and the exception, if one propagated. -/
structure DispatchOut where
  state : ClientState
  hooks : List (String × ClientState)
  err : Option PyErr
deriving DecidableEq

/-- Like `DispatchOut` but before the raw line is attached to the hook
record: `_evt_hook` always receives the one raw line being dispatched, so
only the state at the moment of the call needs recording here. -/
structure DispatchCore where
  state : ClientState
  hookStates : List ClientState
  err : Option PyErr
deriving DecidableEq

/-- Embeds `WM._on_wm_event`.  The line is split on single spaces; the
first token selects the handler from the `EVENTS` table (unknown types
fall to `unsupported_evt_handler`, which only logs).  The zip of declared
converters with the actual arguments truncates to the shorter side, the
conversions run left to right before the handler is called (so a
`ValueError` precedes any state change and a missing argument is a
`TypeError` at call time), and `self._evt_hook(line)` runs only after the
handler returned without raising. -/
def dispatchLine (s : ClientState) (dump : WmDump) :
    List String → DispatchCore
  | [] => ⟨s, [], none⟩
  | evt_type :: evt_args =>
    if evt_type = "desktop_focus" then
      match evt_args with
      | [] => ⟨s, [], some .typeError⟩
      | [a] =>
        match pyIntBase16 a with
        | none => ⟨s, [], some (.valueError a)⟩
        | some _ => ⟨s, [], some .typeError⟩
      | a :: b :: _ =>
        match pyIntBase16 a with
        | none => ⟨s, [], some (.valueError a)⟩
        | some mon_id =>
          match pyIntBase16 b with
          | none => ⟨s, [], some (.valueError b)⟩
          | some desk_id =>
            match onDesktopFocus s mon_id desk_id with
            | (s₂, none) => ⟨s₂, [s₂], none⟩
            | (s₂, some e) => ⟨s₂, [], some e⟩
    else if evt_type = "desktop_layout" then
      match evt_args with
      | [] => ⟨s, [], some .typeError⟩
      | [a] =>
        match pyIntBase16 a with
        | none => ⟨s, [], some (.valueError a)⟩
        | some _ => ⟨s, [], some .typeError⟩
      | [a, b] =>
        match pyIntBase16 a with
        | none => ⟨s, [], some (.valueError a)⟩
        | some _ =>
          match pyIntBase16 b with
          | none => ⟨s, [], some (.valueError b)⟩
          | some _ => ⟨s, [], some .typeError⟩
      | a :: b :: c :: _ =>
        match pyIntBase16 a with
        | none => ⟨s, [], some (.valueError a)⟩
        | some mon_id =>
          match pyIntBase16 b with
          | none => ⟨s, [], some (.valueError b)⟩
          | some desk_id =>
            match onDesktopLayout s mon_id desk_id c with
            | (s₂, none) => ⟨s₂, [s₂], none⟩
            | (s₂, some e) => ⟨s₂, [], some e⟩
    else if evt_type = "monitor_geometry" then
      match onMonitorGeometry s dump with
      | (s₂, none) => ⟨s₂, [s₂], none⟩
      | (s₂, some e) => ⟨s₂, [], some e⟩
    else
      ⟨s, [s], none⟩

/-- Embeds `WM._on_wm_event` proper: split the raw line on single spaces
(`line.split(' ')`, which never yields an empty list) and dispatch the
resulting tokens. -/
def onWmEvent (s : ClientState) (dump : WmDump) (line : String) : DispatchOut :=
  match dispatchLine s dump (pySplit ' ' line) with
  | ⟨s₂, hookStates, e⟩ => ⟨s₂, hookStates.map fun st => (line, st), e⟩

/-- The inner loop of `WM.run` over the lines of one decoded chunk: each
line is dispatched in order; an exception from `_on_wm_event` propagates
out of the `for` loop at once, so the remaining lines are never
dispatched. -/
def runLines (s : ClientState) (dump : WmDump) : List String → DispatchOut
  | [] => ⟨s, [], none⟩
  | l :: rest =>
    match onWmEvent s dump l with
    | ⟨s₂, hooks, none⟩ =>
      let out := runLines s₂ dump rest
      ⟨out.state, hooks ++ out.hooks, out.err⟩
    | ⟨s₂, hooks, some e⟩ => ⟨s₂, hooks, some e⟩

/-- Python `str.rstrip` with a single newline argument: remove every
trailing newline character. -/
def rstripNewlines (s : String) : String :=
  ⟨((s.data.reverse.dropWhile (fun c => c = '\n')).reverse)⟩

/-- One iteration of the `while True` body of `WM.run` applied to the
decoded bytes of one `read(4096)`: strip trailing newlines, split on
newlines, dispatch each line. -/
def processChunk (s : ClientState) (dump : WmDump) (chunk : String) : DispatchOut :=
  runLines s dump (pySplit '\n' (rstripNewlines chunk))

/-- `WM.run` after the daemon closes the stream: every further
`read(4096)` returns the empty byte string, so each iteration of the
`while True` loop processes the chunk `""`.  `runAtEof s dump n` is the
state and hook trace after `n` such iterations. -/
def runAtEof (s : ClientState) (dump : WmDump) : Nat → ClientState × List (String × ClientState)
  | 0 => (s, [])
  | n + 1 =>
    let out := processChunk s dump ""
    let rest := runAtEof out.state dump n
    (rest.1, out.hooks ++ rest.2)

/-- Embeds the request encoding of `call`:
`('\0'.join(method)).encode('utf-8') + b'\0'`, at the string level. -/
def encodeRequest (method : List String) : String :=
  String.intercalate "\x00" method ++ "\x00"

/-- UTF-8 bytes of an ASCII-only string (every request string in scope is
ASCII, where UTF-8 is the identity on code points). -/
def asciiBytes (s : String) : List Nat :=
  s.data.map Char.toNat

/-- Embeds `call` against a peer: the bytes written to the socket and the
value returned for the peer reply `reply`, namely
`reply.decode('utf-8').rstrip('\n')`. -/
def callModel (method : List String) (reply : String) : List Nat × String :=
  (asciiBytes (encodeRequest method), rstripNewlines reply)

/-- Follows the words of the spec (not the code): strip at most ONE
trailing newline from the reply.  Used to compare the spec sentence
against `callModel`. -/
def specStripOneNewline (s : String) : String :=
  match s.data.getLast? with
  | some c => if c = '\n' then ⟨s.data.dropLast⟩ else s
  | none => s

/-- The spec invariant on one monitor: the focused desktop resolves among
that monitor's own desktops. -/
def Monitor.wfb (m : Monitor) : Bool :=
  (dictGet m.desktops m.focused_desktop).isSome

/-- The spec invariant on the mirror: the focused monitor is set and is a
key of the monitor dictionary, and every monitor satisfies its own
invariant. -/
def ClientState.wfb (s : ClientState) : Bool :=
  (match s.focused_monitor with
   | none => false
   | some fid => (dictGet s.monitors fid).isSome)
  && s.monitors.all fun p => p.2.wfb

/-- Concrete desktop dump used by the example fixtures. -/
def deskDumpI : DesktopDump := ⟨10, "I", "tiled"⟩

/-- Concrete desktop dump used by the example fixtures. -/
def deskDumpII : DesktopDump := ⟨11, "II", "monocle"⟩

/-- Concrete monitor dump with two desktops, focused on desktop 10. -/
def monDumpA : MonitorDump := ⟨1, "LVDS1", [deskDumpI, deskDumpII], 10⟩

/-- Concrete monitor dump with one desktop, focused on desktop 20. -/
def monDumpB : MonitorDump := ⟨2, "HDMI1", [⟨20, "III", "tiled"⟩], 20⟩

/-- Concrete two-monitor dump, focused on monitor 1. -/
def dumpAB : WmDump := ⟨[monDumpA, monDumpB], 1⟩

/-- Concrete one-monitor dump, focused on monitor 1. -/
def dumpA1 : WmDump := ⟨[monDumpA], 1⟩

/-- Concrete one-monitor dump whose `focusedMonitorId` (99) is not among
its own monitors. -/
def dumpFocus99 : WmDump := ⟨[monDumpA], 99⟩

/-- A monitor no dump mentions, standing for pre-re-bootstrap state. -/
def staleMonitor : Monitor := ⟨99, "stale", [(50, ⟨50, "old", "tiled"⟩)], 50⟩

/-- A non-empty mirror state holding only `staleMonitor`, as left behind
by an earlier bootstrap against a daemon whose topology then changed. -/
def staleState : ClientState := ⟨[(99, staleMonitor)], some 99⟩

/-- The mirror after a successful bootstrap of a fresh `WM` from
`dumpAB`. -/
def bootState : ClientState := (applyInitialState WM.initState dumpAB).1

/-- Concrete monitor dump whose `focusedDesktopId` (31) is not among its
own desktops. -/
def monDumpBad : MonitorDump := ⟨3, "bad", [⟨30, "IV", "tiled"⟩], 31⟩

/-- Concrete dump containing `monDumpBad`. -/
def dumpBad : WmDump := ⟨[monDumpBad], 3⟩

/-- The desktop dictionary that bootstrapping builds for `monDumpA`. -/
def desksA : List (Int × Desktop) :=
  [(10, ⟨10, "I", "tiled"⟩), (11, ⟨11, "II", "monocle"⟩)]

/-- The monitor that bootstrapping builds for `monDumpA`. -/
def monA : Monitor := ⟨1, "LVDS1", desksA, 10⟩

@[simp] theorem dictKeys_nil {α : Type} : dictKeys ([] : List (Int × α)) = [] := rfl

@[simp] theorem dictKeys_cons {α : Type} (k : Int) (v : α) (d : List (Int × α)) :
    dictKeys ((k, v) :: d) = k :: dictKeys d := rfl

theorem dictGet_dictSet_self {α : Type} (d : List (Int × α)) (k : Int) (v : α) :
    dictGet (dictSet d k v) k = some v := by
  induction d with
  | nil => simp [dictSet, dictGet]
  | cons p rest ih =>
    obtain ⟨k₂, v₂⟩ := p
    by_cases h : k₂ = k
    · simp [dictSet, h, dictGet]
    · simp only [dictSet, if_neg h, dictGet]
      rw [if_neg (Ne.symm h)]
      exact ih

theorem dictGet_dictSet_ne {α : Type} (d : List (Int × α)) (k k₂ : Int) (v : α)
    (h : k₂ ≠ k) : dictGet (dictSet d k v) k₂ = dictGet d k₂ := by
  induction d with
  | nil => simp [dictSet, dictGet, h]
  | cons p rest ih =>
    obtain ⟨k₃, v₃⟩ := p
    by_cases h₂ : k₃ = k
    · subst h₂
      simp only [dictSet, if_pos rfl, dictGet]
      rw [if_neg h, if_neg h]
    · simp only [dictSet, if_neg h₂, dictGet, ih]

theorem mem_dictKeys_iff_isSome {α : Type} (d : List (Int × α)) (k : Int) :
    k ∈ dictKeys d ↔ (dictGet d k).isSome := by
  induction d with
  | nil => simp [dictGet]
  | cons p rest ih =>
    obtain ⟨k₂, v₂⟩ := p
    by_cases h : k = k₂
    · simp [dictGet, h]
    · simp only [dictKeys_cons, List.mem_cons, dictGet, if_neg h, ih]
      exact or_iff_right h

theorem mem_dictKeys_dictSet {α : Type} (d : List (Int × α)) (k k₂ : Int) (v : α) :
    k₂ ∈ dictKeys (dictSet d k v) ↔ k₂ ∈ dictKeys d ∨ k₂ = k := by
  induction d with
  | nil => simp [dictSet]
  | cons p rest ih =>
    obtain ⟨k₃, v₃⟩ := p
    by_cases h : k₃ = k
    · subst h
      simp only [dictSet, if_true]
      simp only [dictKeys_cons, List.mem_cons]
      tauto
    · simp only [dictSet, if_neg h, dictKeys_cons, List.mem_cons, ih]
      tauto

theorem dictSet_of_not_mem {α : Type} (d : List (Int × α)) (k : Int) (v : α)
    (h : k ∉ dictKeys d) : dictSet d k v = d ++ [(k, v)] := by
  induction d with
  | nil => simp [dictSet]
  | cons p rest ih =>
    obtain ⟨k₂, v₂⟩ := p
    simp only [dictKeys_cons, List.mem_cons] at h
    push_neg at h
    simp only [dictSet]
    rw [if_neg (Ne.symm h.1), List.cons_append, ih h.2]

theorem dictKeys_dictSet_of_mem {α : Type} (d : List (Int × α)) (k : Int) (v : α)
    (h : k ∈ dictKeys d) : dictKeys (dictSet d k v) = dictKeys d := by
  induction d with
  | nil => simp at h
  | cons p rest ih =>
    obtain ⟨k₂, v₂⟩ := p
    by_cases h₂ : k₂ = k
    · simp [dictSet, h₂]
    · simp only [dictKeys_cons, List.mem_cons] at h
      rcases h with h | h
      · exact absurd h.symm h₂
      · simp only [dictSet, if_neg h₂, dictKeys_cons, ih h]

theorem length_dictSet_of_mem {α : Type} (d : List (Int × α)) (k : Int) (v : α)
    (h : k ∈ dictKeys d) : (dictSet d k v).length = d.length := by
  have h₁ : (dictKeys (dictSet d k v)).length = (dictKeys d).length := by
    rw [dictKeys_dictSet_of_mem d k v h]
  simpa [dictKeys] using h₁

theorem nodup_dictKeys_dictSet {α : Type} (d : List (Int × α)) (k : Int) (v : α)
    (h : (dictKeys d).Nodup) : (dictKeys (dictSet d k v)).Nodup := by
  induction d with
  | nil => simp [dictSet]
  | cons p rest ih =>
    obtain ⟨k₂, v₂⟩ := p
    simp only [dictKeys_cons, List.nodup_cons] at h
    by_cases h₂ : k₂ = k
    · subst h₂
      simp only [dictSet, if_true]
      simp only [dictKeys_cons, List.nodup_cons]
      exact h
    · simp only [dictSet, if_neg h₂, dictKeys_cons, List.nodup_cons]
      refine ⟨fun hh => ?_, ih h.2⟩
      rw [mem_dictKeys_dictSet] at hh
      rcases hh with hh | hh
      · exact h.1 hh
      · exact h₂ hh

theorem mem_dictSet {α : Type} (d : List (Int × α)) (k : Int) (v : α)
    (p : Int × α) (h : p ∈ dictSet d k v) : p = (k, v) ∨ p ∈ d := by
  induction d with
  | nil => simpa [dictSet] using h
  | cons q rest ih =>
    obtain ⟨k₂, v₂⟩ := q
    by_cases h₂ : k₂ = k
    · simp only [dictSet, if_pos h₂, List.mem_cons] at h
      tauto
    · simp only [dictSet, if_neg h₂, List.mem_cons] at h
      rcases h with h | h
      · simp [h]
      · rcases ih h with h | h <;> simp [h]

theorem dictSet_dictSet_same {α : Type} (d : List (Int × α)) (k : Int) (v w : α) :
    dictSet (dictSet d k v) k w = dictSet d k w := by
  induction d with
  | nil => simp [dictSet]
  | cons p rest ih =>
    obtain ⟨k₂, v₂⟩ := p
    by_cases h : k₂ = k
    · simp [dictSet, h]
    · simp [dictSet, h, ih]

theorem dictKeys_append {α : Type} (a b : List (Int × α)) :
    dictKeys (a ++ b) = dictKeys a ++ dictKeys b := by
  simp [dictKeys]

theorem mem_dictKeys_deskFold (ds : List DesktopDump) (acc : List (Int × Desktop)) (k : Int) :
    k ∈ dictKeys (ds.foldl (fun a d => dictSet a d.id (Desktop.ofDump d)) acc) ↔
      k ∈ dictKeys acc ∨ k ∈ ds.map DesktopDump.id := by
  induction ds generalizing acc with
  | nil => simp
  | cons d rest ih =>
    simp only [List.foldl_cons, List.map_cons, List.mem_cons, ih, mem_dictKeys_dictSet]
    tauto

theorem deskFold_eq_append (ds : List DesktopDump) (acc : List (Int × Desktop))
    (hnd : (ds.map DesktopDump.id).Nodup)
    (hdisj : ∀ d ∈ ds, d.id ∉ dictKeys acc) :
    ds.foldl (fun a d => dictSet a d.id (Desktop.ofDump d)) acc
      = acc ++ ds.map fun d => (d.id, Desktop.ofDump d) := by
  induction ds generalizing acc with
  | nil => simp
  | cons d rest ih =>
    simp only [List.map_cons, List.nodup_cons] at hnd
    simp only [List.foldl_cons, List.map_cons]
    rw [dictSet_of_not_mem _ _ _ (hdisj d (by simp))]
    rw [ih (acc ++ [(d.id, Desktop.ofDump d)]) hnd.2]
    · simp
    · intro d₂ hd₂
      rw [dictKeys_append]
      simp only [List.mem_append]
      rintro (hc | hc)
      · exact hdisj d₂ (by simp [hd₂]) hc
      · simp [dictKeys] at hc
        exact hnd.1 (hc ▸ List.mem_map_of_mem DesktopDump.id hd₂)

theorem mem_dictKeys_deskDict (ds : List DesktopDump) (k : Int) :
    k ∈ dictKeys (deskDict ds) ↔ k ∈ ds.map DesktopDump.id := by
  unfold deskDict
  rw [mem_dictKeys_deskFold]
  simp

theorem Monitor.init_error_eq (m : MonitorDump) (e : PyErr)
    (h : Monitor.init m = .error e) :
    e = .keyError m.focusedDesktopId ∧ m.focusedDesktopId ∉ m.desktops.map DesktopDump.id := by
  unfold Monitor.init at h
  rcases hg : dictGet (deskDict m.desktops) m.focusedDesktopId with _ | v
  · rw [hg] at h
    refine ⟨by injection h with h₂; exact h₂.symm, fun hc => ?_⟩
    have := (mem_dictKeys_deskDict m.desktops m.focusedDesktopId).mpr hc
    rw [mem_dictKeys_iff_isSome, hg] at this
    simp at this
  · rw [hg] at h
    exact absurd h (by simp)

theorem Monitor.init_bad_focus (m : MonitorDump)
    (h : m.focusedDesktopId ∉ m.desktops.map DesktopDump.id) :
    Monitor.init m = .error (.keyError m.focusedDesktopId) := by
  unfold Monitor.init
  rcases hg : dictGet (deskDict m.desktops) m.focusedDesktopId with _ | v
  · rfl
  · exfalso
    apply h
    have := (mem_dictKeys_iff_isSome (deskDict m.desktops) m.focusedDesktopId).mpr
      (by simp [hg])
    rwa [mem_dictKeys_deskDict] at this

theorem Monitor.init_good_focus (m : MonitorDump)
    (h : m.focusedDesktopId ∈ m.desktops.map DesktopDump.id) :
    Monitor.init m = .ok ⟨m.id, m.name, deskDict m.desktops, m.focusedDesktopId⟩ := by
  unfold Monitor.init
  rcases hg : dictGet (deskDict m.desktops) m.focusedDesktopId with _ | v
  · exfalso
    have := (mem_dictKeys_deskDict m.desktops m.focusedDesktopId).mpr h
    rw [mem_dictKeys_iff_isSome, hg] at this
    simp at this
  · rfl

theorem Monitor.init_ok_fields (m : MonitorDump) (mon : Monitor)
    (h : Monitor.init m = .ok mon) :
    mon.id = m.id ∧ mon.name = m.name ∧ mon.focused_desktop = m.focusedDesktopId ∧
      mon.desktops = deskDict m.desktops ∧ mon.wfb = true := by
  unfold Monitor.init at h
  rcases hg : dictGet (deskDict m.desktops) m.focusedDesktopId with _ | v
  · rw [hg] at h
    exact absurd h (by simp)
  · rw [hg] at h
    injection h with h₂
    subst h₂
    exact ⟨rfl, rfl, rfl, rfl, by simp [Monitor.wfb, hg]⟩

theorem installMonitors_focused (s : ClientState) (ms : List MonitorDump) :
    (installMonitors s ms).1.focused_monitor = s.focused_monitor := by
  induction ms generalizing s with
  | nil => rfl
  | cons m rest ih =>
    cases h : Monitor.init m with
    | error e => simp [installMonitors, h]
    | ok mon =>
      simp only [installMonitors, h]
      exact ih _

theorem installMonitors_dictGet_notmem (s : ClientState) (ms : List MonitorDump) (k : Int)
    (hk : k ∉ ms.map MonitorDump.id) :
    dictGet (installMonitors s ms).1.monitors k = dictGet s.monitors k := by
  induction ms generalizing s with
  | nil => rfl
  | cons m rest ih =>
    simp only [List.map_cons, List.mem_cons] at hk
    push_neg at hk
    cases h : Monitor.init m with
    | error e => simp [installMonitors, h]
    | ok mon =>
      simp only [installMonitors, h]
      rw [ih _ hk.2]
      exact dictGet_dictSet_ne _ _ _ _ hk.1

theorem installMonitors_err_none_of_ok (s : ClientState) (ms : List MonitorDump)
    (h : ∀ m ∈ ms, ∃ mon, Monitor.init m = .ok mon) :
    (installMonitors s ms).2 = none := by
  induction ms generalizing s with
  | nil => rfl
  | cons m rest ih =>
    obtain ⟨mon, hmon⟩ := h m (by simp)
    simp only [installMonitors, hmon]
    exact ih _ fun m₂ hm₂ => h m₂ (by simp [hm₂])

theorem installMonitors_ok_of_err_none (s : ClientState) (ms : List MonitorDump)
    (h : (installMonitors s ms).2 = none) :
    ∀ m ∈ ms, ∃ mon, Monitor.init m = .ok mon := by
  induction ms generalizing s with
  | nil => simp
  | cons m rest ih =>
    cases hm : Monitor.init m with
    | error e => simp [installMonitors, hm] at h
    | ok mon =>
      simp only [installMonitors, hm] at h
      intro m₂ hm₂
      rcases List.mem_cons.mp hm₂ with hm₂ | hm₂
      · exact ⟨mon, hm₂ ▸ hm⟩
      · exact ih _ h m₂ hm₂

theorem installMonitors_err_mem (s : ClientState) (ms : List MonitorDump) (e : PyErr)
    (h : (installMonitors s ms).2 = some e) :
    ∃ m ∈ ms, Monitor.init m = .error e := by
  induction ms generalizing s with
  | nil => simp [installMonitors] at h
  | cons m rest ih =>
    cases hm : Monitor.init m with
    | error e₂ =>
      simp only [installMonitors, hm] at h
      injection h with h₂
      exact ⟨m, by simp, h₂ ▸ hm⟩
    | ok mon =>
      simp only [installMonitors, hm] at h
      obtain ⟨m₂, hmem, hm₂⟩ := ih _ h
      exact ⟨m₂, by simp [hmem], hm₂⟩

theorem installMonitors_mem_keys (s : ClientState) (ms : List MonitorDump) (k : Int)
    (hok : (installMonitors s ms).2 = none) :
    k ∈ dictKeys (installMonitors s ms).1.monitors ↔
      k ∈ dictKeys s.monitors ∨ k ∈ ms.map MonitorDump.id := by
  induction ms generalizing s with
  | nil => simp [installMonitors]
  | cons m rest ih =>
    cases hm : Monitor.init m with
    | error e => simp [installMonitors, hm] at hok
    | ok mon =>
      simp only [installMonitors, hm] at hok ⊢
      rw [ih _ hok]
      simp only [mem_dictKeys_dictSet, List.map_cons, List.mem_cons]
      have hid : mon.id = m.id := (Monitor.init_ok_fields m mon hm).1
      tauto

theorem installMonitors_nodup (s : ClientState) (ms : List MonitorDump)
    (h : (dictKeys s.monitors).Nodup) :
    (dictKeys (installMonitors s ms).1.monitors).Nodup := by
  induction ms generalizing s with
  | nil => exact h
  | cons m rest ih =>
    cases hm : Monitor.init m with
    | error e => simpa [installMonitors, hm] using h
    | ok mon =>
      simp only [installMonitors, hm]
      exact ih _ (nodup_dictKeys_dictSet _ _ _ h)

theorem installMonitors_lookup (s : ClientState) (ms : List MonitorDump)
    (hnd : (ms.map MonitorDump.id).Nodup)
    (hok : (installMonitors s ms).2 = none) :
    ∀ m ∈ ms, ∃ mon, Monitor.init m = .ok mon ∧
      dictGet (installMonitors s ms).1.monitors m.id = some mon := by
  induction ms generalizing s with
  | nil => simp
  | cons m rest ih =>
    simp only [List.map_cons, List.nodup_cons] at hnd
    cases hm : Monitor.init m with
    | error e => simp [installMonitors, hm] at hok
    | ok mon =>
      simp only [installMonitors, hm] at hok ⊢
      intro m₂ hm₂
      rcases List.mem_cons.mp hm₂ with hm₂ | hm₂
      · subst hm₂
        refine ⟨mon, hm, ?_⟩
        rw [installMonitors_dictGet_notmem _ _ _ hnd.1]
        exact dictGet_dictSet_self _ _ _
      · exact ih _ hnd.2 hok m₂ hm₂

theorem installMonitors_wf_values (s : ClientState) (ms : List MonitorDump)
    (h : ∀ p ∈ s.monitors, p.2.wfb = true) :
    ∀ p ∈ (installMonitors s ms).1.monitors, p.2.wfb = true := by
  induction ms generalizing s with
  | nil => exact h
  | cons m rest ih =>
    cases hm : Monitor.init m with
    | error e => simpa [installMonitors, hm] using h
    | ok mon =>
      simp only [installMonitors, hm]
      refine ih _ fun p hp => ?_
      rcases mem_dictSet _ _ _ _ hp with hp | hp
      · rw [hp]
        exact (Monitor.init_ok_fields m mon hm).2.2.2.2
      · exact h p hp

theorem installMonitors_length (s : ClientState) (ms : List MonitorDump)
    (hnds : (dictKeys s.monitors).Nodup)
    (hsub : ∀ k ∈ dictKeys s.monitors, k ∈ ms.map MonitorDump.id)
    (hnd : (ms.map MonitorDump.id).Nodup)
    (hok : (installMonitors s ms).2 = none) :
    (installMonitors s ms).1.monitors.length = ms.length := by
  have hperm : List.Perm (dictKeys (installMonitors s ms).1.monitors) (ms.map MonitorDump.id) := by
    refine List.perm_of_nodup_nodup_toFinset_eq (installMonitors_nodup s ms hnds) hnd ?_
    ext k
    simp only [List.mem_toFinset, installMonitors_mem_keys s ms k hok]
    exact ⟨fun hh => hh.elim (hsub k) id, Or.inr⟩
  have h₁ : (dictKeys (installMonitors s ms).1.monitors).length = (ms.map MonitorDump.id).length :=
    hperm.length_eq
  simpa [dictKeys] using h₁

theorem pySplitChars_ne_nil (sep : Char) (cs : List Char) :
    pySplitChars sep cs ≠ [] := by
  induction cs with
  | nil => simp [pySplitChars]
  | cons c rest ih =>
    unfold pySplitChars
    split
    · simp
    · split
      · simp
      · simp

theorem pySplit_ne_nil (sep : Char) (s : String) : pySplit sep s ≠ [] := by
  unfold pySplit
  simp [pySplitChars_ne_nil]

theorem onDesktopFocus_error (s : ClientState) (a b : Int) (s₂ : ClientState) (e : PyErr)
    (h : onDesktopFocus s a b = (s₂, some e)) : s₂ = s ∧ ∃ i, e = .keyError i := by
  unfold onDesktopFocus at h
  split at h
  · injection h with h₁ h₂
    injection h₂ with h₂
    exact ⟨h₁.symm, a, h₂.symm⟩
  · split at h
    · injection h with h₁ h₂
      injection h₂ with h₂
      exact ⟨h₁.symm, b, h₂.symm⟩
    · injection h with h₁ h₂
      simp at h₂

theorem onDesktopLayout_error (s : ClientState) (a b : Int) (c : String)
    (s₂ : ClientState) (e : PyErr)
    (h : onDesktopLayout s a b c = (s₂, some e)) : s₂ = s ∧ ∃ i, e = .keyError i := by
  unfold onDesktopLayout at h
  split at h
  · injection h with h₁ h₂
    injection h₂ with h₂
    exact ⟨h₁.symm, a, h₂.symm⟩
  · split at h
    · injection h with h₁ h₂
      injection h₂ with h₂
      exact ⟨h₁.symm, b, h₂.symm⟩
    · injection h with h₁ h₂
      simp at h₂

theorem applyInitialState_err_keyError (s : ClientState) (d : WmDump) (e : PyErr)
    (h : (applyInitialState s d).2 = some e) : ∃ i, e = .keyError i := by
  unfold applyInitialState at h
  split at h
  · rename_i s₃ e₂ heq
    simp only at h
    injection h with h₂
    obtain ⟨m, _, hm⟩ := installMonitors_err_mem s d.monitors e₂ (by rw [heq])
    obtain ⟨he, _⟩ := Monitor.init_error_eq m e₂ hm
    exact ⟨m.focusedDesktopId, by rw [← h₂]; exact he⟩
  · rename_i s₃ heq
    split at h
    · simp only at h
      injection h with h₂
      exact ⟨d.focusedMonitorId, h₂.symm⟩
    · simp at h

theorem applyInitialState_ok_shape (s : ClientState) (d : WmDump) (s₂ : ClientState)
    (h : applyInitialState s d = (s₂, none)) :
    (installMonitors s d.monitors).2 = none ∧
      s₂.monitors = (installMonitors s d.monitors).1.monitors ∧
      s₂.focused_monitor = some d.focusedMonitorId ∧
      (dictGet s₂.monitors d.focusedMonitorId).isSome = true := by
  unfold applyInitialState at h
  split at h
  · rename_i s₃ e₂ heq
    simp at h
  · rename_i s₃ heq
    split at h
    · simp at h
    · rename_i v hg
      injection h with h₁ h₂
      subst h₁
      refine ⟨by rw [heq], by rw [heq], rfl, ?_⟩
      simp [hg]

theorem applyInitialState_wf (s : ClientState) (d : WmDump) (s₂ : ClientState)
    (hwf : ∀ p ∈ s.monitors, p.2.wfb = true)
    (h : applyInitialState s d = (s₂, none)) : s₂.wfb = true := by
  obtain ⟨hi, hmon, hfoc, hget⟩ := applyInitialState_ok_shape s d s₂ h
  unfold ClientState.wfb
  rw [hfoc, hmon]
  simp only [Bool.and_eq_true, List.all_eq_true]
  rw [hmon] at hget
  constructor
  · exact hget
  · intro p hp
    exact installMonitors_wf_values s d.monitors hwf p hp

theorem dispatchLine_unrecognized (s : ClientState) (dump : WmDump)
    (t : String) (args : List String)
    (ht1 : t ≠ "desktop_focus") (ht2 : t ≠ "desktop_layout")
    (ht3 : t ≠ "monitor_geometry") :
    dispatchLine s dump (t :: args) = ⟨s, [s], none⟩ := by
  simp [dispatchLine, ht1, ht2, ht3]

theorem dispatchLine_success (s : ClientState) (dump : WmDump)
    (t : String) (args : List String) (out : DispatchCore)
    (hd : dispatchLine s dump (t :: args) = out) (he : out.err = none) :
    out.hookStates = [out.state] ∧
      (out.state = s ∨
       (∃ a b, onDesktopFocus s a b = (out.state, none)) ∨
       (∃ a b c, onDesktopLayout s a b c = (out.state, none)) ∨
       applyInitialState s dump = (out.state, none)) := by
  by_cases ht1 : t = "desktop_focus"
  · subst ht1
    rcases args with _ | ⟨a, args⟩
    · rw [show dispatchLine s dump ["desktop_focus"] = ⟨s, [], some .typeError⟩
        from by simp [dispatchLine]] at hd
      subst hd
      simp at he
    · rcases args with _ | ⟨b, args⟩
      · rcases hpa : pyIntBase16 a with _ | mon
        · rw [show dispatchLine s dump ["desktop_focus", a]
              = ⟨s, [], some (.valueError a)⟩ from by simp [dispatchLine, hpa]] at hd
          subst hd
          simp at he
        · rw [show dispatchLine s dump ["desktop_focus", a]
              = ⟨s, [], some .typeError⟩ from by simp [dispatchLine, hpa]] at hd
          subst hd
          simp at he
      · rcases hpa : pyIntBase16 a with _ | mon
        · rw [show dispatchLine s dump ("desktop_focus" :: a :: b :: args)
              = ⟨s, [], some (.valueError a)⟩ from by simp [dispatchLine, hpa]] at hd
          subst hd
          simp at he
        · rcases hpb : pyIntBase16 b with _ | desk
          · rw [show dispatchLine s dump ("desktop_focus" :: a :: b :: args)
                = ⟨s, [], some (.valueError b)⟩
                from by simp [dispatchLine, hpa, hpb]] at hd
            subst hd
            simp at he
          · rcases hf : onDesktopFocus s mon desk with ⟨s₂, e⟩
            rcases e with _ | e
            · rw [show dispatchLine s dump ("desktop_focus" :: a :: b :: args)
                  = ⟨s₂, [s₂], none⟩
                  from by simp [dispatchLine, hpa, hpb, hf]] at hd
              subst hd
              exact ⟨rfl, Or.inr (Or.inl ⟨mon, desk, hf⟩)⟩
            · rw [show dispatchLine s dump ("desktop_focus" :: a :: b :: args)
                  = ⟨s₂, [], some e⟩ from by simp [dispatchLine, hpa, hpb, hf]] at hd
              subst hd
              simp at he
  · by_cases ht2 : t = "desktop_layout"
    · subst ht2
      rcases args with _ | ⟨a, args⟩
      · rw [show dispatchLine s dump ["desktop_layout"] = ⟨s, [], some .typeError⟩
          from by simp [dispatchLine]] at hd
        subst hd
        simp at he
      · rcases args with _ | ⟨b, args⟩
        · rcases hpa : pyIntBase16 a with _ | mon
          · rw [show dispatchLine s dump ["desktop_layout", a]
                = ⟨s, [], some (.valueError a)⟩ from by simp [dispatchLine, hpa]] at hd
            subst hd
            simp at he
          · rw [show dispatchLine s dump ["desktop_layout", a]
                = ⟨s, [], some .typeError⟩ from by simp [dispatchLine, hpa]] at hd
            subst hd
            simp at he
        · rcases args with _ | ⟨c, args⟩
          · rcases hpa : pyIntBase16 a with _ | mon
            · rw [show dispatchLine s dump ["desktop_layout", a, b]
                  = ⟨s, [], some (.valueError a)⟩ from by simp [dispatchLine, hpa]] at hd
              subst hd
              simp at he
            · rcases hpb : pyIntBase16 b with _ | desk
              · rw [show dispatchLine s dump ["desktop_layout", a, b]
                    = ⟨s, [], some (.valueError b)⟩
                    from by simp [dispatchLine, hpa, hpb]] at hd
                subst hd
                simp at he
              · rw [show dispatchLine s dump ["desktop_layout", a, b]
                    = ⟨s, [], some .typeError⟩
                    from by simp [dispatchLine, hpa, hpb]] at hd
                subst hd
                simp at he
          · rcases hpa : pyIntBase16 a with _ | mon
            · rw [show dispatchLine s dump ("desktop_layout" :: a :: b :: c :: args)
                  = ⟨s, [], some (.valueError a)⟩ from by simp [dispatchLine, hpa]] at hd
              subst hd
              simp at he
            · rcases hpb : pyIntBase16 b with _ | desk
              · rw [show dispatchLine s dump ("desktop_layout" :: a :: b :: c :: args)
                    = ⟨s, [], some (.valueError b)⟩
                    from by simp [dispatchLine, hpa, hpb]] at hd
                subst hd
                simp at he
              · rcases hf : onDesktopLayout s mon desk c with ⟨s₂, e⟩
                rcases e with _ | e
                · rw [show dispatchLine s dump
                        ("desktop_layout" :: a :: b :: c :: args)
                      = ⟨s₂, [s₂], none⟩
                      from by simp [dispatchLine, hpa, hpb, hf]] at hd
                  subst hd
                  exact ⟨rfl, Or.inr (Or.inr (Or.inl ⟨mon, desk, c, hf⟩))⟩
                · rw [show dispatchLine s dump
                        ("desktop_layout" :: a :: b :: c :: args)
                      = ⟨s₂, [], some e⟩ from by simp [dispatchLine, hpa, hpb, hf]] at hd
                  subst hd
                  simp at he
    · by_cases ht3 : t = "monitor_geometry"
      · subst ht3
        rcases hg : applyInitialState s dump with ⟨s₂, e⟩
        rcases e with _ | e
        · rw [show dispatchLine s dump ("monitor_geometry" :: args)
              = ⟨s₂, [s₂], none⟩
              from by simp [dispatchLine, onMonitorGeometry, hg]] at hd
          subst hd
          exact ⟨rfl, Or.inr (Or.inr (Or.inr (by simp [hg])))⟩
        · rw [show dispatchLine s dump ("monitor_geometry" :: args)
              = ⟨s₂, [], some e⟩ from by simp [dispatchLine, onMonitorGeometry, hg]] at hd
          subst hd
          simp at he
      · rw [dispatchLine_unrecognized s dump t args ht1 ht2 ht3] at hd
        subst hd
        exact ⟨rfl, Or.inl rfl⟩

theorem dispatchLine_valueError (s : ClientState) (dump : WmDump)
    (t : String) (args : List String) (out : DispatchCore) (x : String)
    (hd : dispatchLine s dump (t :: args) = out)
    (he : out.err = some (.valueError x)) :
    out.state = s ∧ out.hookStates = [] := by
  by_cases ht1 : t = "desktop_focus"
  · subst ht1
    rcases args with _ | ⟨a, args⟩
    · rw [show dispatchLine s dump ["desktop_focus"] = ⟨s, [], some .typeError⟩
        from by simp [dispatchLine]] at hd
      subst hd
      simp at he
    · rcases args with _ | ⟨b, args⟩
      · rcases hpa : pyIntBase16 a with _ | mon
        · rw [show dispatchLine s dump ["desktop_focus", a]
              = ⟨s, [], some (.valueError a)⟩ from by simp [dispatchLine, hpa]] at hd
          subst hd
          exact ⟨rfl, rfl⟩
        · rw [show dispatchLine s dump ["desktop_focus", a]
              = ⟨s, [], some .typeError⟩ from by simp [dispatchLine, hpa]] at hd
          subst hd
          simp at he
      · rcases hpa : pyIntBase16 a with _ | mon
        · rw [show dispatchLine s dump ("desktop_focus" :: a :: b :: args)
              = ⟨s, [], some (.valueError a)⟩ from by simp [dispatchLine, hpa]] at hd
          subst hd
          exact ⟨rfl, rfl⟩
        · rcases hpb : pyIntBase16 b with _ | desk
          · rw [show dispatchLine s dump ("desktop_focus" :: a :: b :: args)
                = ⟨s, [], some (.valueError b)⟩
                from by simp [dispatchLine, hpa, hpb]] at hd
            subst hd
            exact ⟨rfl, rfl⟩
          · rcases hf : onDesktopFocus s mon desk with ⟨s₂, e⟩
            rcases e with _ | e
            · rw [show dispatchLine s dump ("desktop_focus" :: a :: b :: args)
                  = ⟨s₂, [s₂], none⟩
                  from by simp [dispatchLine, hpa, hpb, hf]] at hd
              subst hd
              simp at he
            · rw [show dispatchLine s dump ("desktop_focus" :: a :: b :: args)
                  = ⟨s₂, [], some e⟩ from by simp [dispatchLine, hpa, hpb, hf]] at hd
              subst hd
              obtain ⟨hs, i, hi⟩ := onDesktopFocus_error s mon desk s₂ e hf
              rw [hi] at he
              simp at he
  · by_cases ht2 : t = "desktop_layout"
    · subst ht2
      rcases args with _ | ⟨a, args⟩
      · rw [show dispatchLine s dump ["desktop_layout"] = ⟨s, [], some .typeError⟩
          from by simp [dispatchLine]] at hd
        subst hd
        simp at he
      · rcases args with _ | ⟨b, args⟩
        · rcases hpa : pyIntBase16 a with _ | mon
          · rw [show dispatchLine s dump ["desktop_layout", a]
                = ⟨s, [], some (.valueError a)⟩ from by simp [dispatchLine, hpa]] at hd
            subst hd
            exact ⟨rfl, rfl⟩
          · rw [show dispatchLine s dump ["desktop_layout", a]
                = ⟨s, [], some .typeError⟩ from by simp [dispatchLine, hpa]] at hd
            subst hd
            simp at he
        · rcases args with _ | ⟨c, args⟩
          · rcases hpa : pyIntBase16 a with _ | mon
            · rw [show dispatchLine s dump ["desktop_layout", a, b]
                  = ⟨s, [], some (.valueError a)⟩ from by simp [dispatchLine, hpa]] at hd
              subst hd
              exact ⟨rfl, rfl⟩
            · rcases hpb : pyIntBase16 b with _ | desk
              · rw [show dispatchLine s dump ["desktop_layout", a, b]
                    = ⟨s, [], some (.valueError b)⟩
                    from by simp [dispatchLine, hpa, hpb]] at hd
                subst hd
                exact ⟨rfl, rfl⟩
              · rw [show dispatchLine s dump ["desktop_layout", a, b]
                    = ⟨s, [], some .typeError⟩
                    from by simp [dispatchLine, hpa, hpb]] at hd
                subst hd
                simp at he
          · rcases hpa : pyIntBase16 a with _ | mon
            · rw [show dispatchLine s dump ("desktop_layout" :: a :: b :: c :: args)
                  = ⟨s, [], some (.valueError a)⟩ from by simp [dispatchLine, hpa]] at hd
              subst hd
              exact ⟨rfl, rfl⟩
            · rcases hpb : pyIntBase16 b with _ | desk
              · rw [show dispatchLine s dump ("desktop_layout" :: a :: b :: c :: args)
                    = ⟨s, [], some (.valueError b)⟩
                    from by simp [dispatchLine, hpa, hpb]] at hd
                subst hd
                exact ⟨rfl, rfl⟩
              · rcases hf : onDesktopLayout s mon desk c with ⟨s₂, e⟩
                rcases e with _ | e
                · rw [show dispatchLine s dump
                        ("desktop_layout" :: a :: b :: c :: args)
                      = ⟨s₂, [s₂], none⟩
                      from by simp [dispatchLine, hpa, hpb, hf]] at hd
                  subst hd
                  simp at he
                · rw [show dispatchLine s dump
                        ("desktop_layout" :: a :: b :: c :: args)
                      = ⟨s₂, [], some e⟩ from by simp [dispatchLine, hpa, hpb, hf]] at hd
                  subst hd
                  obtain ⟨hs, i, hi⟩ := onDesktopLayout_error s mon desk c s₂ e hf
                  rw [hi] at he
                  simp at he
    · by_cases ht3 : t = "monitor_geometry"
      · subst ht3
        rcases hg : applyInitialState s dump with ⟨s₂, e⟩
        rcases e with _ | e
        · rw [show dispatchLine s dump ("monitor_geometry" :: args)
              = ⟨s₂, [s₂], none⟩
              from by simp [dispatchLine, onMonitorGeometry, hg]] at hd
          subst hd
          simp at he
        · rw [show dispatchLine s dump ("monitor_geometry" :: args)
              = ⟨s₂, [], some e⟩ from by simp [dispatchLine, onMonitorGeometry, hg]] at hd
          subst hd
          obtain ⟨i, hi⟩ := applyInitialState_err_keyError s dump e (by rw [hg])
          rw [hi] at he
          simp at he
      · rw [dispatchLine_unrecognized s dump t args ht1 ht2 ht3] at hd
        subst hd
        simp at he

theorem dictGet_of_mem_nodup {α : Type} (d : List (Int × α)) (p : Int × α)
    (hnd : (dictKeys d).Nodup) (hp : p ∈ d) : dictGet d p.1 = some p.2 := by
  induction d with
  | nil => simp at hp
  | cons q rest ih =>
    obtain ⟨k₂, v₂⟩ := q
    simp only [dictKeys_cons, List.nodup_cons] at hnd
    rcases List.mem_cons.mp hp with hp | hp
    · rw [hp]
      simp [dictGet]
    · have hne : p.1 ≠ k₂ := by
        intro hc
        exact hnd.1 (hc ▸ List.mem_map_of_mem Prod.fst hp)
      simp only [dictGet, if_neg hne]
      exact ih hnd.2 hp

theorem deskDict_eq_map (ds : List DesktopDump)
    (hnd : (ds.map DesktopDump.id).Nodup) :
    deskDict ds = ds.map fun dd => (dd.id, Desktop.ofDump dd) := by
  unfold deskDict
  rw [deskFold_eq_append ds [] hnd (by simp)]
  simp

/-- Claim C1 is refuted on the code: re-bootstrapping a non-empty mirror
(one stale monitor, id 99) from a dump containing N = 1 monitor leaves 2
monitor entries, because `_apply_initial_state` never clears
`self.monitors`; the call still succeeds. -/
theorem C1_counterexample :
    (applyInitialState staleState dumpA1).1.monitors.length = 2 ∧
      dumpA1.monitors.length = 1 ∧ (applyInitialState staleState dumpA1).2 = none := by
  decide

/-- Claim C1 (amended): bootstrapping overlays the dump onto the existing
monitor mapping instead of replacing it.  Whenever every pre-existing
monitor id also occurs in the dump (in particular from the empty initial
state), the resulting mapping has exactly the dump's N entries; each dump
monitor is mapped to a fresh `Monitor` holding exactly the desktops listed
for it; the focused monitor is the dump's `focusedMonitorId` and resolves
in the mapping, and every monitor in the resulting mapping has a focused
desktop that resolves among its own desktops. -/
theorem C1_bootstrap_overlay (s : ClientState) (d : WmDump)
    (hprior : (dictKeys s.monitors).Nodup)
    (hsub : ∀ k ∈ dictKeys s.monitors, k ∈ d.monitors.map MonitorDump.id)
    (hndm : (d.monitors.map MonitorDump.id).Nodup)
    (hndd : ∀ m ∈ d.monitors, (m.desktops.map DesktopDump.id).Nodup)
    (hfd : ∀ m ∈ d.monitors, m.focusedDesktopId ∈ m.desktops.map DesktopDump.id)
    (hfm : d.focusedMonitorId ∈ d.monitors.map MonitorDump.id) :
    (applyInitialState s d).2 = none ∧
      (applyInitialState s d).1.monitors.length = d.monitors.length ∧
      (∀ m ∈ d.monitors,
        dictGet (applyInitialState s d).1.monitors m.id =
          some ⟨m.id, m.name, m.desktops.map fun dd => (dd.id, Desktop.ofDump dd),
                m.focusedDesktopId⟩) ∧
      (applyInitialState s d).1.focused_monitor = some d.focusedMonitorId ∧
      (dictGet (applyInitialState s d).1.monitors d.focusedMonitorId).isSome = true ∧
      (∀ p ∈ (applyInitialState s d).1.monitors, p.2.wfb = true) := by
  have hini : ∀ m ∈ d.monitors, ∃ mon, Monitor.init m = .ok mon :=
    fun m hm => ⟨_, Monitor.init_good_focus m (hfd m hm)⟩
  have hi2 : (installMonitors s d.monitors).2 = none :=
    installMonitors_err_none_of_ok s d.monitors hini
  have hmemfm : (dictGet (installMonitors s d.monitors).1.monitors
      d.focusedMonitorId).isSome = true := by
    rw [← mem_dictKeys_iff_isSome]
    exact (installMonitors_mem_keys s d.monitors _ hi2).mpr (Or.inr hfm)
  have happ : applyInitialState s d =
      (⟨(installMonitors s d.monitors).1.monitors, some d.focusedMonitorId⟩, none) := by
    unfold applyInitialState
    split
    · rename_i s₃ e heq
      rw [heq] at hi2
      simp at hi2
    · rename_i s₃ heq
      split
      · rename_i hg
        rw [heq] at hmemfm
        simp only at hmemfm
        rw [hg] at hmemfm
        simp at hmemfm
      · rename_i v hg
        rw [heq]
  refine ⟨by rw [happ], ?_, ?_, by rw [happ], ?_, ?_⟩
  · rw [happ]
    exact installMonitors_length s d.monitors hprior hsub hndm hi2
  · intro m hm
    rw [happ]
    obtain ⟨mon, hinit, hlook⟩ := installMonitors_lookup s d.monitors hndm hi2 m hm
    rw [Monitor.init_good_focus m (hfd m hm)] at hinit
    injection hinit with hmon
    rw [hlook, ← hmon, deskDict_eq_map m.desktops (hndd m hm)]
  · rw [happ]
    exact hmemfm
  · intro p hp
    rw [happ] at hp
    simp only at hp
    have hk : p.1 ∈ dictKeys (installMonitors s d.monitors).1.monitors :=
      List.mem_map_of_mem Prod.fst hp
    rw [installMonitors_mem_keys s d.monitors _ hi2] at hk
    have hk₂ : p.1 ∈ d.monitors.map MonitorDump.id := by
      rcases hk with hk | hk
      · exact hsub p.1 hk
      · exact hk
    obtain ⟨m, hm, hmid⟩ := List.mem_map.mp hk₂
    obtain ⟨mon, hinit, hlook⟩ := installMonitors_lookup s d.monitors hndm hi2 m hm
    have hget : dictGet (installMonitors s d.monitors).1.monitors p.1 = some p.2 :=
      dictGet_of_mem_nodup _ p (installMonitors_nodup s d.monitors hprior) hp
    rw [← hmid, hlook] at hget
    injection hget with hget
    rw [← hget]
    exact (Monitor.init_ok_fields m mon hinit).2.2.2.2

/-- Witness for C1: a fresh client bootstrapped from the concrete
two-monitor dump `dumpAB` succeeds. -/
theorem C1_witness : (applyInitialState WM.initState dumpAB).2 = none :=
  (C1_bootstrap_overlay WM.initState dumpAB (by decide) (by decide) (by decide)
    (by decide) (by decide) (by decide)).1

/-- Claim C2 is refuted on the code: a re-bootstrap of `staleState` (one
stale monitor, id 99) from a dump whose `focusedMonitorId` 99 is not among
the parsed monitors (only id 1) succeeds, because `_apply_initial_state`
resolves `focusedMonitorId` against the merged mapping that still holds
the stale monitor. -/
theorem C2_counterexample :
    (applyInitialState staleState dumpFocus99).2 = none ∧
      dumpFocus99.focusedMonitorId ∉ dumpFocus99.monitors.map MonitorDump.id := by
  decide

/-- Claim C2 (amended): an unresolved id makes the operation raise a
`KeyError` (the spec's MalformedStateError).  Bootstrap fails when some
monitor's `focusedDesktopId` is not among that monitor's own desktops;
it fails with `KeyError focusedMonitorId` when the monitor inits succeed
and `focusedMonitorId` resolves neither among the parsed monitors nor
among the monitors retained from before the call; `desktop_focus` fails
when the monitor id is unknown, or the desktop id is unknown within that
monitor. -/
theorem C2_unresolved_ids :
    (∀ (s : ClientState) (d : WmDump) (m : MonitorDump), m ∈ d.monitors →
      m.focusedDesktopId ∉ m.desktops.map DesktopDump.id →
      ∃ i, (applyInitialState s d).2 = some (.keyError i)) ∧
    (∀ (s : ClientState) (d : WmDump),
      (∀ m ∈ d.monitors, m.focusedDesktopId ∈ m.desktops.map DesktopDump.id) →
      d.focusedMonitorId ∉ dictKeys s.monitors →
      d.focusedMonitorId ∉ d.monitors.map MonitorDump.id →
      (applyInitialState s d).2 = some (.keyError d.focusedMonitorId)) ∧
    (∀ (s : ClientState) (a b : Int), dictGet s.monitors a = none →
      onDesktopFocus s a b = (s, some (.keyError a))) ∧
    (∀ (s : ClientState) (a b : Int) (m : Monitor), dictGet s.monitors a = some m →
      dictGet m.desktops b = none →
      onDesktopFocus s a b = (s, some (.keyError b))) := by
  refine ⟨?_, ?_, ?_, ?_⟩
  · intro s d m hm hbad
    rcases happ : applyInitialState s d with ⟨s₂, e⟩
    rcases e with _ | e
    · exfalso
      obtain ⟨hi2, _, _, _⟩ := applyInitialState_ok_shape s d s₂ happ
      obtain ⟨mon, hmon⟩ := installMonitors_ok_of_err_none s d.monitors hi2 m hm
      rw [Monitor.init_bad_focus m hbad] at hmon
      simp at hmon
    · obtain ⟨i, hi⟩ := applyInitialState_err_keyError s d e (by rw [happ])
      exact ⟨i, by simp [happ, hi]⟩
  · intro s d hfd hnot₁ hnot₂
    have hi2 : (installMonitors s d.monitors).2 = none :=
      installMonitors_err_none_of_ok s d.monitors
        fun m hm => ⟨_, Monitor.init_good_focus m (hfd m hm)⟩
    unfold applyInitialState
    split
    · rename_i s₃ e heq
      rw [heq] at hi2
      simp at hi2
    · rename_i s₃ heq
      split
      · rfl
      · rename_i v hg
        exfalso
        have hmem : d.focusedMonitorId ∈ dictKeys s₃.monitors := by
          rw [mem_dictKeys_iff_isSome, hg]
          rfl
        have := (installMonitors_mem_keys s d.monitors d.focusedMonitorId hi2).mp
          (by rw [heq]; exact hmem)
        rcases this with hc | hc
        · exact hnot₁ hc
        · exact hnot₂ hc
  · intro s a b hm
    simp [onDesktopFocus, hm]
  · intro s a b m hm hd
    simp [onDesktopFocus, hm, hd]

/-- Witness for C2: the amended theorem applied to concrete inputs: a
fresh client bootstrapped from `dumpBad` (whose only monitor names a
missing focused desktop) fails with a `KeyError`, and `desktop_focus` on
`staleState` with unknown monitor id 1 fails with `KeyError 1`. -/
theorem C2_witness :
    (∃ i, (applyInitialState WM.initState dumpBad).2 = some (.keyError i)) ∧
      onDesktopFocus staleState 1 2 = (staleState, some (.keyError 1)) :=
  ⟨C2_unresolved_ids.1 WM.initState dumpBad monDumpBad (by decide) (by decide),
   C2_unresolved_ids.2.2.1 staleState 1 2 (by decide)⟩

theorem onWmEvent_eq (s : ClientState) (dump : WmDump) (line : String) :
    onWmEvent s dump line =
      ⟨(dispatchLine s dump (pySplit ' ' line)).state,
       (dispatchLine s dump (pySplit ' ' line)).hookStates.map fun st => (line, st),
       (dispatchLine s dump (pySplit ' ' line)).err⟩ := by
  unfold onWmEvent
  rcases dispatchLine s dump (pySplit ' ' line) with ⟨a, b, c⟩
  rfl

theorem wfb_values (s : ClientState) (h : s.wfb = true) :
    ∀ p ∈ s.monitors, p.2.wfb = true := by
  unfold ClientState.wfb at h
  simp only [Bool.and_eq_true, List.all_eq_true] at h
  exact h.2

theorem wfb_focused (s : ClientState) (h : s.wfb = true) :
    ∃ fid, s.focused_monitor = some fid ∧ (dictGet s.monitors fid).isSome = true := by
  unfold ClientState.wfb at h
  simp only [Bool.and_eq_true] at h
  rcases hf : s.focused_monitor with _ | fid
  · rw [hf] at h
    simp at h
  · rw [hf] at h
    exact ⟨fid, rfl, h.1⟩

theorem wfb_intro (s : ClientState) (fid : Int)
    (hfoc : s.focused_monitor = some fid)
    (hsome : (dictGet s.monitors fid).isSome = true)
    (hvals : ∀ p ∈ s.monitors, p.2.wfb = true) : s.wfb = true := by
  unfold ClientState.wfb
  rw [hfoc]
  simp only [Bool.and_eq_true, List.all_eq_true]
  exact ⟨hsome, hvals⟩

theorem dictGet_mem {α : Type} (d : List (Int × α)) (k : Int) (v : α)
    (h : dictGet d k = some v) : (k, v) ∈ d := by
  induction d with
  | nil => simp [dictGet] at h
  | cons q rest ih =>
    obtain ⟨k₂, v₂⟩ := q
    by_cases hk : k = k₂
    · subst hk
      simp only [dictGet, if_pos rfl] at h
      injection h with h
      simp [h]
    · simp only [dictGet, if_neg hk] at h
      exact List.mem_cons_of_mem _ (ih h)

theorem onDesktopFocus_wf (s : ClientState) (a b : Int) (s₂ : ClientState)
    (hwf : s.wfb = true) (h : onDesktopFocus s a b = (s₂, none)) : s₂.wfb = true := by
  unfold onDesktopFocus at h
  split at h
  · injection h with h₁ h₂
    simp at h₂
  · rename_i m hm
    split at h
    · injection h with h₁ h₂
      simp at h₂
    · rename_i dk hd
      injection h with h₁ h₂
      obtain ⟨fid, hfoc, hsome⟩ := wfb_focused s hwf
      refine wfb_intro s₂ fid ?_ ?_ ?_
      · rw [← h₁]
        exact hfoc
      · rw [← h₁]
        simp only
        rw [← mem_dictKeys_iff_isSome, mem_dictKeys_dictSet]
        exact Or.inl ((mem_dictKeys_iff_isSome s.monitors fid).mpr hsome)
      · intro p hp
        rw [← h₁] at hp
        simp only at hp
        rcases mem_dictSet _ _ _ _ hp with hp | hp
        · rw [hp]
          simp [Monitor.wfb, hd]
        · exact wfb_values s hwf p hp

theorem onDesktopLayout_wf (s : ClientState) (a b : Int) (c : String) (s₂ : ClientState)
    (hwf : s.wfb = true) (h : onDesktopLayout s a b c = (s₂, none)) : s₂.wfb = true := by
  unfold onDesktopLayout at h
  split at h
  · injection h with h₁ h₂
    simp at h₂
  · rename_i m hm
    split at h
    · injection h with h₁ h₂
      simp at h₂
    · rename_i dk hd
      injection h with h₁ h₂
      obtain ⟨fid, hfoc, hsome⟩ := wfb_focused s hwf
      refine wfb_intro s₂ fid ?_ ?_ ?_
      · rw [← h₁]
        exact hfoc
      · rw [← h₁]
        simp only
        rw [← mem_dictKeys_iff_isSome, mem_dictKeys_dictSet]
        exact Or.inl ((mem_dictKeys_iff_isSome s.monitors fid).mpr hsome)
      · intro p hp
        rw [← h₁] at hp
        simp only at hp
        rcases mem_dictSet _ _ _ _ hp with hp | hp
        · rw [hp]
          have hmwf : m.wfb = true :=
            wfb_values s hwf (a, m) (dictGet_mem s.monitors a m hm)
          unfold Monitor.wfb at hmwf ⊢
          simp only
          rw [← mem_dictKeys_iff_isSome, mem_dictKeys_dictSet]
          exact Or.inl ((mem_dictKeys_iff_isSome m.desktops m.focused_desktop).mpr hmwf)
        · exact wfb_values s hwf p hp

/-- Claim C5: the mirror invariant (the focused monitor is a key of the
monitor mapping, and every monitor's focused desktop is a key of that
monitor's own desktop mapping) is established by every successful
bootstrap from a state whose monitors already satisfy their own invariant
(vacuously so for the empty initial state) and preserved by every
successfully dispatched event line, `desktop_focus`, `desktop_layout` and
`monitor_geometry` re-bootstraps included; by induction it therefore holds
after every operation of any such sequence. -/
theorem C5_invariant_preserved :
    (∀ (s : ClientState) (d : WmDump) (s₂ : ClientState),
      (∀ p ∈ s.monitors, p.2.wfb = true) →
      applyInitialState s d = (s₂, none) → s₂.wfb = true) ∧
    (∀ (s : ClientState) (dump : WmDump) (line : String),
      s.wfb = true → (onWmEvent s dump line).err = none →
      (onWmEvent s dump line).state.wfb = true) := by
  constructor
  · exact applyInitialState_wf
  · intro s dump line hwf he
    rcases hsplit : pySplit ' ' line with _ | ⟨t, args⟩
    · exact absurd hsplit (pySplit_ne_nil ' ' line)
    · rw [onWmEvent_eq, hsplit] at he ⊢
      simp only at he ⊢
      obtain ⟨_, hcases⟩ := dispatchLine_success s dump t args _ rfl he
      rcases hcases with h | ⟨a, b, hf⟩ | ⟨a, b, c, hl⟩ | hg
      · rw [h]
        exact hwf
      · exact onDesktopFocus_wf s a b _ hwf hf
      · exact onDesktopLayout_wf s a b c _ hwf hl
      · exact applyInitialState_wf s dump _ (wfb_values s hwf) hg

/-- Witness for C5: the concrete bootstrapped state satisfies the
invariant, and it still does after dispatching a concrete
`desktop_focus` event. -/
theorem C5_witness :
    bootState.wfb = true ∧
      (onWmEvent bootState dumpAB "desktop_focus 1 b").state.wfb = true := by
  have h₁ : bootState.wfb = true :=
    C5_invariant_preserved.1 WM.initState dumpAB bootState (by decide) (by decide)
  exact ⟨h₁, C5_invariant_preserved.2 bootState dumpAB "desktop_focus 1 b" h₁ (by decide)⟩

/-- Claim C8: an event line whose first token is not a recognized event
type leaves the mirror unchanged yet still reaches the observation hook
exactly once with the raw line; and for every line whose dispatch raises
no exception, the hook is invoked exactly once, with the raw line, after
the mutation (the state recorded at the hook call is the final state). -/
theorem C8_unrecognized_noop_hook :
    (∀ (s : ClientState) (dump : WmDump) (line t : String) (args : List String),
      pySplit ' ' line = t :: args →
      t ≠ "desktop_focus" → t ≠ "desktop_layout" → t ≠ "monitor_geometry" →
      onWmEvent s dump line = ⟨s, [(line, s)], none⟩) ∧
    (∀ (s : ClientState) (dump : WmDump) (line : String),
      (onWmEvent s dump line).err = none →
      (onWmEvent s dump line).hooks = [(line, (onWmEvent s dump line).state)]) := by
  constructor
  · intro s dump line t args hsplit ht1 ht2 ht3
    rw [onWmEvent_eq, hsplit, dispatchLine_unrecognized s dump t args ht1 ht2 ht3]
    rfl
  · intro s dump line he
    rcases hsplit : pySplit ' ' line with _ | ⟨t, args⟩
    · exact absurd hsplit (pySplit_ne_nil ' ' line)
    · rw [onWmEvent_eq, hsplit] at he ⊢
      simp only at he ⊢
      obtain ⟨hh, _⟩ := dispatchLine_success s dump t args _ rfl he
      rw [hh]
      rfl

/-- Witness for C8: the unrecognized event `node_add 1` leaves the
bootstrapped state untouched while the hook still fires once with the raw
line, and a recognized `desktop_focus` line reaches the hook once with
the post-mutation state. -/
theorem C8_witness :
    onWmEvent bootState dumpAB "node_add 1" =
      ⟨bootState, [("node_add 1", bootState)], none⟩ ∧
      (onWmEvent bootState dumpAB "desktop_focus 1 b").hooks =
        [("desktop_focus 1 b", (onWmEvent bootState dumpAB "desktop_focus 1 b").state)] :=
  ⟨C8_unrecognized_noop_hook.1 bootState dumpAB "node_add 1" "node_add" ["1"]
    (by decide) (by decide) (by decide) (by decide),
   C8_unrecognized_noop_hook.2 bootState dumpAB "desktop_focus 1 b" (by decide)⟩

/-- Claim C6: when desktop `desk` belongs to monitor `mon`,
`_on_desktop_focus` succeeds, replaces exactly that monitor's focused
desktop by `desk` (id, name and desktops of the monitor are kept), leaves
every other monitor entry and the focused monitor untouched, and keeps
the key structure of the mapping. -/
theorem C6_desktop_focus_frame (s : ClientState) (mon desk : Int) (m : Monitor)
    (hm : dictGet s.monitors mon = some m)
    (hd : (dictGet m.desktops desk).isSome = true) :
    ∃ s₂, onDesktopFocus s mon desk = (s₂, none) ∧
      s₂.focused_monitor = s.focused_monitor ∧
      dictGet s₂.monitors mon = some ⟨m.id, m.name, m.desktops, desk⟩ ∧
      (∀ k, k ≠ mon → dictGet s₂.monitors k = dictGet s.monitors k) ∧
      dictKeys s₂.monitors = dictKeys s.monitors := by
  rcases hdg : dictGet m.desktops desk with _ | dk
  · rw [hdg] at hd
    simp at hd
  · refine ⟨⟨dictSet s.monitors mon ⟨m.id, m.name, m.desktops, desk⟩, s.focused_monitor⟩,
      ?_, rfl, ?_, ?_, ?_⟩
    · simp [onDesktopFocus, hm, hdg]
    · exact dictGet_dictSet_self _ _ _
    · intro k hk
      exact dictGet_dictSet_ne _ _ _ _ hk
    · exact dictKeys_dictSet_of_mem _ _ _
        ((mem_dictKeys_iff_isSome _ _).mpr (by simp [hm]))

/-- Witness for C6: focusing desktop 11 on monitor 1 of the concrete
bootstrapped state. -/
theorem C6_witness :
    ∃ s₂, onDesktopFocus bootState 1 11 = (s₂, none) ∧
      s₂.focused_monitor = bootState.focused_monitor ∧
      dictGet s₂.monitors 1 =
        some ⟨1, "LVDS1", [(10, ⟨10, "I", "tiled"⟩), (11, ⟨11, "II", "monocle"⟩)], 11⟩ ∧
      (∀ k, k ≠ 1 → dictGet s₂.monitors k = dictGet bootState.monitors k) ∧
      dictKeys s₂.monitors = dictKeys bootState.monitors :=
  C6_desktop_focus_frame bootState 1 11
    ⟨1, "LVDS1", [(10, ⟨10, "I", "tiled"⟩), (11, ⟨11, "II", "monocle"⟩)], 10⟩
    (by decide) (by decide)

/-- Claim C7: when `mon` and `desk` resolve, `_on_desktop_layout`
succeeds and updates only that desktop's layout field (the desktop keeps
its id and name, the monitor keeps its id, name and focused desktop,
every other desktop and monitor entry is unchanged, and so is the focused
monitor); applying the same event again yields exactly the same state. -/
theorem C7_desktop_layout_idem (s : ClientState) (mon desk : Int) (lay : String)
    (m : Monitor) (dk : Desktop)
    (hm : dictGet s.monitors mon = some m)
    (hd : dictGet m.desktops desk = some dk) :
    ∃ s₂, onDesktopLayout s mon desk lay = (s₂, none) ∧
      s₂.focused_monitor = s.focused_monitor ∧
      dictGet s₂.monitors mon =
        some ⟨m.id, m.name, dictSet m.desktops desk ⟨dk.id, dk.name, lay⟩,
              m.focused_desktop⟩ ∧
      (∀ k, k ≠ mon → dictGet s₂.monitors k = dictGet s.monitors k) ∧
      dictGet (dictSet m.desktops desk ⟨dk.id, dk.name, lay⟩) desk =
        some ⟨dk.id, dk.name, lay⟩ ∧
      (∀ k, k ≠ desk →
        dictGet (dictSet m.desktops desk ⟨dk.id, dk.name, lay⟩) k =
          dictGet m.desktops k) ∧
      onDesktopLayout s₂ mon desk lay = (s₂, none) := by
  refine ⟨⟨dictSet s.monitors mon
      ⟨m.id, m.name, dictSet m.desktops desk ⟨dk.id, dk.name, lay⟩, m.focused_desktop⟩,
      s.focused_monitor⟩, ?_, rfl, ?_, ?_, ?_, ?_, ?_⟩
  · simp [onDesktopLayout, hm, hd]
  · exact dictGet_dictSet_self _ _ _
  · intro k hk
    exact dictGet_dictSet_ne _ _ _ _ hk
  · exact dictGet_dictSet_self _ _ _
  · intro k hk
    exact dictGet_dictSet_ne _ _ _ _ hk
  · have h₁ : dictGet (dictSet s.monitors mon
        ⟨m.id, m.name, dictSet m.desktops desk ⟨dk.id, dk.name, lay⟩,
         m.focused_desktop⟩) mon =
        some ⟨m.id, m.name, dictSet m.desktops desk ⟨dk.id, dk.name, lay⟩,
              m.focused_desktop⟩ :=
      dictGet_dictSet_self _ _ _
    have h₂ : dictGet (dictSet m.desktops desk ⟨dk.id, dk.name, lay⟩) desk =
        some ⟨dk.id, dk.name, lay⟩ := dictGet_dictSet_self _ _ _
    simp [onDesktopLayout, h₁, h₂, dictSet_dictSet_same]

/-- Witness for C7: setting the layout of desktop 10 on monitor 1 of the
concrete bootstrapped state to monocle. -/
theorem C7_witness :
    ∃ s₂, onDesktopLayout bootState 1 10 "monocle" = (s₂, none) ∧
      s₂.focused_monitor = bootState.focused_monitor ∧
      dictGet s₂.monitors 1 =
        some ⟨monA.id, monA.name, dictSet monA.desktops 10 ⟨10, "I", "monocle"⟩,
              monA.focused_desktop⟩ ∧
      (∀ k, k ≠ 1 → dictGet s₂.monitors k = dictGet bootState.monitors k) ∧
      dictGet (dictSet monA.desktops 10 ⟨10, "I", "monocle"⟩) 10 =
        some ⟨10, "I", "monocle"⟩ ∧
      (∀ k, k ≠ 10 →
        dictGet (dictSet monA.desktops 10 ⟨10, "I", "monocle"⟩) k =
          dictGet monA.desktops k) ∧
      onDesktopLayout s₂ 1 10 "monocle" = (s₂, none) :=
  C7_desktop_layout_idem bootState 1 10 "monocle" monA ⟨10, "I", "tiled"⟩
    (by decide) (by decide)

/-- Claim C10: surplus positional arguments beyond the declared arity are
silently dropped by the `zip` in `_on_wm_event`: a recognized line with
extra arguments produces the same state and the same exception as the
line truncated to the declared arity, and when no exception is raised the
hook still fires once with the raw (untruncated) line. -/
theorem C10_surplus_args_ignored :
    (∀ (s : ClientState) (dump : WmDump) (line line₂ a b : String)
        (extra : List String),
      pySplit ' ' line = "desktop_focus" :: a :: b :: extra →
      pySplit ' ' line₂ = ["desktop_focus", a, b] →
      (onWmEvent s dump line).state = (onWmEvent s dump line₂).state ∧
      (onWmEvent s dump line).err = (onWmEvent s dump line₂).err ∧
      ((onWmEvent s dump line).err = none →
        (onWmEvent s dump line).hooks = [(line, (onWmEvent s dump line).state)])) ∧
    (∀ (s : ClientState) (dump : WmDump) (line line₂ a b c : String)
        (extra : List String),
      pySplit ' ' line = "desktop_layout" :: a :: b :: c :: extra →
      pySplit ' ' line₂ = ["desktop_layout", a, b, c] →
      (onWmEvent s dump line).state = (onWmEvent s dump line₂).state ∧
      (onWmEvent s dump line).err = (onWmEvent s dump line₂).err ∧
      ((onWmEvent s dump line).err = none →
        (onWmEvent s dump line).hooks = [(line, (onWmEvent s dump line).state)])) ∧
    (∀ (s : ClientState) (dump : WmDump) (line line₂ : String)
        (extra : List String),
      pySplit ' ' line = "monitor_geometry" :: extra →
      pySplit ' ' line₂ = ["monitor_geometry"] →
      (onWmEvent s dump line).state = (onWmEvent s dump line₂).state ∧
      (onWmEvent s dump line).err = (onWmEvent s dump line₂).err ∧
      ((onWmEvent s dump line).err = none →
        (onWmEvent s dump line).hooks = [(line, (onWmEvent s dump line).state)])) := by
  refine ⟨?_, ?_, ?_⟩
  · intro s dump line line₂ a b extra hs1 hs2
    have hcore : dispatchLine s dump ("desktop_focus" :: a :: b :: extra) =
        dispatchLine s dump ["desktop_focus", a, b] := rfl
    rw [onWmEvent_eq s dump line, onWmEvent_eq s dump line₂, hs1, hs2, hcore]
    refine ⟨rfl, rfl, fun he => ?_⟩
    obtain ⟨hh, _⟩ := dispatchLine_success s dump "desktop_focus" [a, b] _ rfl he
    simp only
    rw [hh]
    rfl
  · intro s dump line line₂ a b c extra hs1 hs2
    have hcore : dispatchLine s dump ("desktop_layout" :: a :: b :: c :: extra) =
        dispatchLine s dump ["desktop_layout", a, b, c] := rfl
    rw [onWmEvent_eq s dump line, onWmEvent_eq s dump line₂, hs1, hs2, hcore]
    refine ⟨rfl, rfl, fun he => ?_⟩
    obtain ⟨hh, _⟩ := dispatchLine_success s dump "desktop_layout" [a, b, c] _ rfl he
    simp only
    rw [hh]
    rfl
  · intro s dump line line₂ extra hs1 hs2
    have hcore : dispatchLine s dump ("monitor_geometry" :: extra) =
        dispatchLine s dump ["monitor_geometry"] := rfl
    rw [onWmEvent_eq s dump line, onWmEvent_eq s dump line₂, hs1, hs2, hcore]
    refine ⟨rfl, rfl, fun he => ?_⟩
    obtain ⟨hh, _⟩ := dispatchLine_success s dump "monitor_geometry" [] _ rfl he
    simp only
    rw [hh]
    rfl

/-- Witness for C10: `desktop_focus 1 b junk` mutates the concrete
bootstrapped state exactly like `desktop_focus 1 b`, raises nothing, and
the hook receives the raw longer line. -/
theorem C10_witness :
    (onWmEvent bootState dumpAB "desktop_focus 1 b junk").state =
      (onWmEvent bootState dumpAB "desktop_focus 1 b").state ∧
    (onWmEvent bootState dumpAB "desktop_focus 1 b junk").err =
      (onWmEvent bootState dumpAB "desktop_focus 1 b").err ∧
    ((onWmEvent bootState dumpAB "desktop_focus 1 b junk").err = none →
      (onWmEvent bootState dumpAB "desktop_focus 1 b junk").hooks =
        [("desktop_focus 1 b junk",
          (onWmEvent bootState dumpAB "desktop_focus 1 b junk").state)]) :=
  C10_surplus_args_ignored.1 bootState dumpAB "desktop_focus 1 b junk"
    "desktop_focus 1 b" "1" "b" ["junk"] (by decide) (by decide)

/-- Claim C3 is refuted on the code: in one chunk holding the malformed
line `desktop_focus zz b` followed by a well-formed `desktop_layout`
line, the ValueError from the first line propagates out of the `for`
loop, so the second line is never applied (its effect is visible when it
is dispatched alone), the state is unchanged and no hook fires. -/
theorem C3_counterexample :
    runLines bootState dumpAB ["desktop_focus zz b", "desktop_layout 1 a monocle"] =
      ⟨bootState, [], some (.valueError "zz")⟩ ∧
      (runLines bootState dumpAB ["desktop_layout 1 a monocle"]).state ≠ bootState := by
  decide

/-- Claim C3 (amended): a positional argument that fails its hex
conversion raises `ValueError` (the spec's ProtocolError) before any
mutation — the state is unchanged and the hook does not fire for that
line — but the exception propagates out of the subscription loop: the
remaining lines of the chunk are not processed. -/
theorem C3_parse_failure_aborts_loop :
    (∀ (s : ClientState) (dump : WmDump) (line x : String),
      (onWmEvent s dump line).err = some (.valueError x) →
      (onWmEvent s dump line).state = s ∧ (onWmEvent s dump line).hooks = []) ∧
    (∀ (s : ClientState) (dump : WmDump) (l : String) (rest : List String) (e : PyErr),
      (onWmEvent s dump l).err = some e →
      runLines s dump (l :: rest) =
        ⟨(onWmEvent s dump l).state, (onWmEvent s dump l).hooks, some e⟩) := by
  constructor
  · intro s dump line x he
    rcases hsplit : pySplit ' ' line with _ | ⟨t, args⟩
    · exact absurd hsplit (pySplit_ne_nil ' ' line)
    · rw [onWmEvent_eq, hsplit] at he ⊢
      simp only at he ⊢
      obtain ⟨h₁, h₂⟩ := dispatchLine_valueError s dump t args _ x rfl he
      rw [h₁, h₂]
      exact ⟨rfl, rfl⟩
  · intro s dump l rest e he
    rcases hout : onWmEvent s dump l with ⟨s₂, hooks, err⟩
    rw [hout] at he
    obtain rfl : err = some e := he
    simp [runLines, hout]

/-- Witness for C3: the malformed line `desktop_focus zz b` raises
`ValueError` on the concrete bootstrapped state, leaving it unchanged
with no hook call, and the loop stops there. -/
theorem C3_witness :
    ((onWmEvent bootState dumpAB "desktop_focus zz b").state = bootState ∧
      (onWmEvent bootState dumpAB "desktop_focus zz b").hooks = []) ∧
      runLines bootState dumpAB ["desktop_focus zz b", "desktop_layout 1 a monocle"] =
        ⟨(onWmEvent bootState dumpAB "desktop_focus zz b").state,
         (onWmEvent bootState dumpAB "desktop_focus zz b").hooks,
         some (.valueError "zz")⟩ :=
  ⟨C3_parse_failure_aborts_loop.1 bootState dumpAB "desktop_focus zz b" "zz" (by decide),
   C3_parse_failure_aborts_loop.2 bootState dumpAB "desktop_focus zz b"
     ["desktop_layout 1 a monocle"] (.valueError "zz") (by decide)⟩

/-- Claim C4 fails on the code, which is the bug: once the daemon closes
the stream, `read(4096)` returns the empty byte string forever, but the
`while True` loop in `run` keeps going: every iteration splits the empty
chunk into the single empty line, dispatches it (an unrecognized event)
and invokes the hook with `""` — after n iterations the hook has fired n
times on a line the daemon never sent, and the loop never terminates. -/
theorem C4_eof_spins_forever (s : ClientState) (dump : WmDump) (n : Nat) :
    runAtEof s dump n = (s, List.replicate n ("", s)) := by
  induction n generalizing s with
  | zero => rfl
  | succ n ih =>
    have h₂ : onWmEvent s dump "" = ⟨s, [("", s)], none⟩ := by
      rw [onWmEvent_eq]
      have h₃ : pySplit ' ' "" = [""] := rfl
      rw [h₃, dispatchLine_unrecognized s dump "" [] (by decide) (by decide) (by decide)]
      rfl
    have hchunk : processChunk s dump "" = ⟨s, [("", s)], none⟩ := by
      unfold processChunk
      have h₁ : pySplit '\n' (rstripNewlines "") = [""] := rfl
      rw [h₁]
      unfold runLines
      rw [h₂]
      simp [runLines]
    unfold runAtEof
    simp [hchunk, ih, List.replicate_succ]

/-- Claim C9 is refuted on the code for the decode half: `rstrip('\n')`
removes every trailing newline, not at most one, so for the reply
`"G\n\n"` the call returns `"G"` where one-newline stripping would return
`"G\n"`.  (`specStripOneNewline` follows the words of the claim.) -/
theorem C9_counterexample :
    (callModel ["wm", "-g"] "G\n\n").2 = "G" ∧
      specStripOneNewline "G\n\n" = "G\n" ∧
      (callModel ["wm", "-g"] "G\n\n").2 ≠ specStripOneNewline "G\n\n" := by
  decide

/-- Claim C9 (amended): the request bytes are exactly the arguments
joined by the null byte plus one trailing null byte (for
`["wm", "-g"]` the bytes `wm\0-g\0`, and the exemplar reply exchange
returns the newline-stripped report); the returned reply is the daemon
reply with ALL trailing newlines removed: the reply splits as the result
plus a run of newlines, and the result never ends in a newline. -/
theorem C9_request_bytes_strip_all (method : List String) (reply : String) :
    (callModel method reply).1 = asciiBytes (String.intercalate "\x00" method) ++ [0] ∧
      callModel ["wm", "-g"] "WMLVDS1:oI:OII:fIII:oIV:LM:TT:G\n" =
        ([119, 109, 0, 45, 103, 0], "WMLVDS1:oI:OII:fIII:oIV:LM:TT:G") ∧
      (∃ k, reply.data = (callModel method reply).2.data ++ List.replicate k '\n') ∧
      (∀ c, (callModel method reply).2.data.getLast? = some c → c ≠ '\n') := by
  refine ⟨?_, by decide, ?_, ?_⟩
  · show (asciiBytes (encodeRequest method)) = _
    unfold encodeRequest asciiBytes
    rw [String.data_append, List.map_append]
    rfl
  · show ∃ k, reply.data = (rstripNewlines reply).data ++ List.replicate k '\n'
    unfold rstripNewlines
    refine ⟨(reply.data.reverse.takeWhile (fun c => c = '\n')).length, ?_⟩
    conv_lhs => rw [← reply.data.reverse_reverse,
      ← List.takeWhile_append_dropWhile (fun c => decide (c = '\n')) reply.data.reverse]
    rw [List.reverse_append]
    congr 1
    have hall : ∀ c ∈ (reply.data.reverse.takeWhile fun c => c = '\n').reverse,
        c = '\n' := by
      intro c hc
      have := List.mem_takeWhile_imp (List.mem_reverse.mp hc)
      simpa using this
    have hrep := List.eq_replicate_of_mem hall
    simpa using hrep
  · intro c hc
    show c ≠ '\n'
    have hmatch := List.head?_dropWhile_not (fun c => decide (c = '\n'))
      reply.data.reverse
    have hc₂ : (reply.data.reverse.dropWhile fun c => decide (c = '\n')).head? =
        some c := by
      have : (rstripNewlines reply).data.getLast? = some c := hc
      unfold rstripNewlines at this
      rwa [List.getLast?_eq_head?_reverse, List.reverse_reverse] at this
    rw [hc₂] at hmatch
    simpa using hmatch
